import Mathlib

/-!
Verification of the `uestcer/utils` library against its specification.

The development shallowly embeds the three packages of the repository:

* `slice`  — generic higher-order operations over sequences.  A Go slice of
  homogeneous elements is modelled as a `List α`; the reflective dispatch
  (`reflectSlice` / `reflectFunc`) only checks argument shapes at runtime and
  is outside the embedded domain (well-shaped calls are modelled directly).
* `collection` — the map-backed `Set`.  The backing `map[interface{}]bool`
  is modelled as a `Finset α` (key uniqueness = no duplicates; Go map
  iteration order is unspecified, so only the underlying set of keys is
  observable through the operations treated here).  A possibly-nil `Set`
  argument is an `Option (baseSet α)`.
* `errors` — the chainable error values.  A Go `error` reachable from the
  package is either a `*baseError` (the package's `Error` interface) or some
  other error exposing only `Error()`; the ambient stack capture
  (`StackTrace()`) reads runtime state and is passed to the constructors as
  an explicit `(stack, context)` input.
-/

set_option autoImplicit false

namespace slice

variable {α : Type}

/-- Go `slice.Filter`: forward loop over the slice, appending each element
for which `f` returns true; starts from an empty (non-nil) result slice. -/
def Filter : List α → (α → Bool) → List α
  | [], _ => []
  | e :: rest, f => if f e then e :: Filter rest f else Filter rest f

/-- Go `slice.Exist`: forward loop, returns true on the first element
satisfying `f`, false when the loop ends. -/
def Exist : List α → (α → Bool) → Bool
  | [], _ => false
  | e :: rest, f => if f e then true else Exist rest f

/-- Go `slice.Find`: forward loop, returns `(true, e)` at the first element
`e` satisfying `f`, and `(false, nil)` when the loop ends.  The `interface{}`
second component (nil on failure) is an `Option α`. -/
def Find : List α → (α → Bool) → Bool × Option α
  | [], _ => (false, none)
  | e :: rest, f => if f e then (true, some e) else Find rest f

/-- Go `slice.ToList`: pushes each slice element onto a fresh
`container/list` list, front to back (`l.PushBack` appends at the end). -/
def ToList (s : List α) : List α :=
  s.foldl (fun l e => l ++ [e]) []

/-- The traversal inside Go `slice.ToSlice`: walks the list from `Front()`
via `Next()`, copying each element value in order into the result slice. -/
def toSliceGo : List α → List α
  | [] => []
  | e :: rest => e :: toSliceGo rest

/-- Go `slice.ToSlice`: returns an empty slice when the `*list.List`
argument is nil (`none`); otherwise copies the element values in forward
iteration order. -/
def ToSlice : Option (List α) → List α
  | none => []
  | some l => toSliceGo l

/-- The reverse loop of Go `slice.IndexLast`: `for i := len-1; i > 0; i--`.
The argument is the current loop index; at index `0` the guard `i > 0`
fails and the loop falls through to `return -1`, so the element at index
`0` is never inspected. -/
def indexLastGo (s : List α) (f : α → Bool) : Nat → Int
  | 0 => -1
  | i + 1 =>
    match s[i + 1]? with
    | some e => if f e then (i : Int) + 1 else indexLastGo s f i
    | none => indexLastGo s f i

/-- Go `slice.IndexLast`: reverse scan starting at `v1.Len() - 1` (for an
empty slice the loop body never runs and the result is `-1`). -/
def IndexLast (s : List α) (f : α → Bool) : Int :=
  indexLastGo s f (s.length - 1)

/-- The reverse loop of Go `slice.FindLast`, same shape as `indexLastGo`:
returns `(true, e)` at the first match scanning backward, `(false, nil)`
once the guard `i > 0` fails. -/
def findLastGo (s : List α) (f : α → Bool) : Nat → Bool × Option α
  | 0 => (false, none)
  | i + 1 =>
    match s[i + 1]? with
    | some e => if f e then (true, some e) else findLastGo s f i
    | none => findLastGo s f i

/-- Go `slice.FindLast`: reverse scan starting at `v1.Len() - 1`. -/
def FindLast (s : List α) (f : α → Bool) : Bool × Option α :=
  findLastGo s f (s.length - 1)

example : Filter [1, 2, 3, 4] (fun i => i % 2 == 0) = [2, 4] := by decide
example : Exist [1, 2, 3, 4] (fun i => i % 3 == 0) = true := by decide
example : Exist [1, 2, 3, 4] (fun i => i % 5 == 0) = false := by decide
example : Find [1, 2, 3, 4, 6] (fun i => i % 3 == 0) = (true, some 3) := by decide
example : FindLast [1, 2, 3, 4, 6] (fun i => i % 3 == 0) = (true, some 6) := by decide
example : FindLast [3, 4] (fun i => i % 3 == 0) = (false, none) := by decide
example : IndexLast [3, 4] (fun i => i % 3 == 0) = -1 := by decide
example : IndexLast [3, 4, 6] (fun i => i % 3 == 0) = 2 := by decide
example : ToSlice (some (ToList [1, 2, 3, 4])) = [1, 2, 3, 4] := by decide

/-- The forward filtering loop agrees with the library `List.filter`. -/
theorem Filter_eq_filter (s : List α) (f : α → Bool) : Filter s f = s.filter f := by
  induction s with
  | nil => rfl
  | cons e rest ih =>
    by_cases h : f e = true <;> simp [Filter, List.filter_cons, h, ih]

/-- Forward filtering splits the length of the input between the matching
and the non-matching elements. -/
theorem length_filter_partition (s : List α) (f : α → Bool) :
    (s.filter f).length + (s.filter (fun x => !f x)).length = s.length := by
  induction s with
  | nil => rfl
  | cons e rest ih =>
    by_cases h : f e = true <;> simp [List.filter_cons, h] <;> omega

/-- The push-back fold of `ToList` appends the traversed elements to the
accumulator. -/
theorem foldl_push_eq_append (s acc : List α) :
    s.foldl (fun l e => l ++ [e]) acc = acc ++ s := by
  induction s generalizing acc with
  | nil => simp
  | cons e rest ih => simp [List.foldl_cons, ih]

/-- `ToList` reproduces its input element for element, in order. -/
theorem ToList_eq (s : List α) : ToList s = s := by
  simpa using foldl_push_eq_append s []

/-- The list-to-slice traversal copies the element sequence unchanged. -/
theorem toSliceGo_eq (l : List α) : toSliceGo l = l := by
  induction l with
  | nil => rfl
  | cons e rest ih => simp [toSliceGo, ih]

/-- `Exist` returns exactly the boolean component of `Find`. -/
theorem Exist_eq_Find_fst (s : List α) (f : α → Bool) : Exist s f = (Find s f).1 := by
  induction s with
  | nil => rfl
  | cons e rest ih =>
    by_cases h : f e = true <;> simp [Exist, Find, h, ih]

/-- `Find` returns the library first forward match `List.find?`, paired with
its success flag. -/
theorem Find_eq_find? (s : List α) (f : α → Bool) :
    Find s f = ((s.find? f).isSome, s.find? f) := by
  induction s with
  | nil => rfl
  | cons e rest ih =>
    by_cases h : f e = true
    · simp [Find, h, List.find?_cons_of_pos rest h]
    · rw [List.find?_cons_of_neg rest h]
      simp [Find, h, ih]

/-- If no element at an index `≥ 1` matches, the reverse loop of
`IndexLast` returns `-1` from every start index. -/
theorem indexLastGo_eq_neg_one (s : List α) (f : α → Bool)
    (h : ∀ i : Fin s.length, 0 < i.val → f (s.get i) = false) :
    ∀ n, indexLastGo s f n = -1 := by
  intro n
  induction n with
  | zero => rfl
  | succ i ih =>
    cases hg : s[i + 1]? with
    | none => simp [indexLastGo, hg, ih]
    | some e =>
      obtain ⟨hlt, he⟩ := List.getElem?_eq_some.mp hg
      have hf : f e = false := by
        have hi := h ⟨i + 1, hlt⟩ (Nat.succ_pos i)
        rwa [List.get_eq_getElem, he] at hi
      simp [indexLastGo, hg, hf, ih]

/-- If no element at an index `≥ 1` matches, the reverse loop of
`FindLast` returns `(false, none)` from every start index. -/
theorem findLastGo_eq_none (s : List α) (f : α → Bool)
    (h : ∀ i : Fin s.length, 0 < i.val → f (s.get i) = false) :
    ∀ n, findLastGo s f n = (false, none) := by
  intro n
  induction n with
  | zero => rfl
  | succ i ih =>
    cases hg : s[i + 1]? with
    | none => simp [findLastGo, hg, ih]
    | some e =>
      obtain ⟨hlt, he⟩ := List.getElem?_eq_some.mp hg
      have hf : f e = false := by
        have hi := h ⟨i + 1, hlt⟩ (Nat.succ_pos i)
        rwa [List.get_eq_getElem, he] at hi
      simp [findLastGo, hg, hf, ih]

/-- C1: the reverse-order scans of `IndexLast` and `FindLast` terminate at
index 1 and never test the element at index 0: whenever no element at an
index `≥ 1` satisfies `f` (in particular when the only match sits at index
0), `IndexLast` returns `-1` and `FindLast` returns `(false, none)`. -/
theorem C1_reverse_scan_skips_index_zero (s : List α) (f : α → Bool)
    (h : ∀ i : Fin s.length, 0 < i.val → f (s.get i) = false) :
    IndexLast s f = -1 ∧ FindLast s f = (false, none) :=
  ⟨indexLastGo_eq_neg_one s f h (s.length - 1),
   findLastGo_eq_none s f h (s.length - 1)⟩

/-- Witness for C1 at the concrete input `[5, 2]` with predicate `x == 5`:
the predicate holds only at index 0, yet both reverse scans miss it. -/
theorem C1_reverse_scan_skips_index_zero_witness :
    (∀ i : Fin (([5, 2] : List Nat)).length,
        0 < i.val → (([5, 2] : List Nat).get i == 5) = false) ∧
    IndexLast ([5, 2] : List Nat) (fun x => x == 5) = -1 ∧
    FindLast ([5, 2] : List Nat) (fun x => x == 5) = (false, none) := by
  refine ⟨by decide, ?_⟩
  exact C1_reverse_scan_skips_index_zero ([5, 2] : List Nat) (fun x => x == 5) (by decide)

/-- C2: every element of `Filter s f` satisfies `f`; the output is a
sublist of the input, hence keeps the original order; when no element
matches, the result is the empty (non-nil) slice; and the lengths of the
two complementary filters partition the length of the input. -/
theorem C2_filter_spec (s : List α) (f : α → Bool) :
    (∀ x ∈ Filter s f, f x = true) ∧
    List.Sublist (Filter s f) s ∧
    ((∀ x ∈ s, f x = false) → Filter s f = []) ∧
    (Filter s f).length + (Filter s (fun x => !f x)).length = s.length := by
  refine ⟨?_, ?_, ?_, ?_⟩
  · intro x hx
    rw [Filter_eq_filter] at hx
    exact (List.mem_filter.mp hx).2
  · rw [Filter_eq_filter]
    exact List.filter_sublist s
  · intro h
    rw [Filter_eq_filter, List.filter_eq_nil_iff]
    intro a ha
    simp [h a ha]
  · rw [Filter_eq_filter, Filter_eq_filter]
    exact length_filter_partition s f

/-- Witness for C2 at the concrete input `[1, 3]` with the even predicate:
no element matches, and the result is the empty slice. -/
theorem C2_filter_spec_witness :
    (∀ x ∈ ([1, 3] : List Nat), (x % 2 == 0) = false) ∧
    Filter ([1, 3] : List Nat) (fun x => x % 2 == 0) = [] := by
  refine ⟨by decide, ?_⟩
  exact (C2_filter_spec ([1, 3] : List Nat) (fun x => x % 2 == 0)).2.2.1 (by decide)

/-- C3: converting a slice to an ordered list and back (`ToSlice (ToList s)`)
reproduces the same elements in the same order, and `ToSlice` of a nil or
empty list is the empty slice. -/
theorem C3_tolist_toslice_roundtrip (s : List α) :
    ToSlice (some (ToList s)) = s ∧
    ToSlice (none : Option (List α)) = [] ∧
    ToSlice (some ([] : List α)) = [] := by
  refine ⟨?_, rfl, rfl⟩
  rw [ToSlice, toSliceGo_eq, ToList_eq]

/-- C4: `Exist` succeeds exactly when `Find` succeeds; `Find` returns the
first forward match (the library `List.find?`) together with its success
flag; and when no element matches, `Find` returns `(false, none)`. -/
theorem C4_exist_find_agree (s : List α) (f : α → Bool) :
    (Exist s f = true ↔ (Find s f).1 = true) ∧
    Find s f = ((s.find? f).isSome, s.find? f) ∧
    ((∀ x ∈ s, f x = false) → Find s f = (false, none)) := by
  refine ⟨by rw [Exist_eq_Find_fst], Find_eq_find? s f, ?_⟩
  intro h
  have hn : s.find? f = none := by
    rw [List.find?_eq_none]
    intro x hx
    simp [h x hx]
  rw [Find_eq_find?, hn]
  rfl

/-- Witness for C4 at the concrete input `[1, 2]` with predicate
`x % 5 == 0`: no element matches and `Find` returns `(false, none)`. -/
theorem C4_exist_find_agree_witness :
    (∀ x ∈ ([1, 2] : List Nat), (x % 5 == 0) = false) ∧
    Find ([1, 2] : List Nat) (fun x => x % 5 == 0) = (false, none) := by
  refine ⟨by decide, ?_⟩
  exact (C4_exist_find_agree ([1, 2] : List Nat) (fun x => x % 5 == 0)).2.2 (by decide)

end slice

namespace collection

/-- Go `collection.baseSet`: the backing `map[interface{}]bool` keyed by the
elements.  Map keys are unique and map iteration order is unspecified, so
the observable backing state is the finite set of keys. -/
structure baseSet (α : Type) where
  elements : Finset α

variable {α : Type} [DecidableEq α]

/-- Go `baseSet.Size`: `len(s.elements)`, the number of keys. -/
def baseSet.Size (s : baseSet α) : Nat :=
  s.elements.card

/-- Go `baseSet.Contains`: the comma-ok map lookup `_, ok := s.elements[v]`. -/
def baseSet.Contains (s : baseSet α) (v : α) : Bool :=
  decide (v ∈ s.elements)

/-- Go `baseSet.Add`: reads the comma-ok membership of `v`, stores
`s.elements[v] = true`, and returns the prior membership flag.  The mutation
is modelled by returning the flag together with the updated set. -/
def baseSet.Add (s : baseSet α) (v : α) : Bool × baseSet α :=
  (decide (v ∈ s.elements), ⟨insert v s.elements⟩)

/-- Go `collection.NewSet`: starts from an empty map and folds `Add` over
the constructor arguments in order. -/
def NewSet (xs : List α) : baseSet α :=
  ⟨xs.foldl (fun s e => insert e s) ∅⟩

/-- Go `baseSet.Union`: returns the receiver unchanged when the argument is
nil; otherwise `s1.Foreach(func(i){ s0.Add(i) })` visits every key of `s1`
exactly once (in unspecified map order) and inserts it, so the resulting
key set is the union of the two key sets. -/
def baseSet.Union (s0 : baseSet α) (s1 : Option (baseSet α)) : baseSet α :=
  match s1 with
  | none => s0
  | some t => ⟨s0.elements ∪ t.elements⟩

/-- Go `baseSet.IsEqual`: false when the argument is nil or the sizes
differ; otherwise the loop over the receiver's keys returns false at the
first key the argument does not contain, and true when the loop ends. -/
def baseSet.IsEqual (s0 : baseSet α) (s1 : Option (baseSet α)) : Bool :=
  match s1 with
  | none => false
  | some t =>
    if s0.Size ≠ t.Size then false
    else decide (∀ k ∈ s0.elements, t.Contains k = true)

example : ((NewSet [1, 2, 3] : baseSet Nat).Add 2).1 = true := by decide
example : ((NewSet [1, 2, 3] : baseSet Nat).Add 5).1 = false := by decide
example : (NewSet [1, 2, 3] : baseSet Nat).IsEqual (some (NewSet [3, 2, 1])) = true := by
  decide
example : (NewSet [1, 2, 3] : baseSet Nat).IsEqual (some (NewSet [1, 2])) = false := by
  decide

/-- `IsEqual` against a non-nil argument holds exactly when the two backing
key sets coincide. -/
theorem baseSet.isEqual_iff (a b : baseSet α) :
    a.IsEqual (some b) = true ↔ a.elements = b.elements := by
  rw [baseSet.IsEqual]
  by_cases h : a.Size ≠ b.Size
  · rw [if_pos h]
    constructor
    · intro hf
      exact absurd hf (by simp)
    · intro he
      exact absurd (congrArg Finset.card he) h
  · rw [if_neg h]
    simp only [decide_eq_true_eq]
    have hcard : b.elements.card ≤ a.elements.card := by
      have := not_not.mp h
      simp [baseSet.Size] at this
      omega
    constructor
    · intro hall
      refine Finset.eq_of_subset_of_card_le ?_ hcard
      intro k hk
      have := hall k hk
      simpa [baseSet.Contains] using this
    · intro he k hk
      rw [he] at hk
      simp [baseSet.Contains, hk]

/-- C5: `Add v` returns true exactly when `v` was already a member before
the call (false for a fresh element), and afterward `v` is a member. -/
theorem C5_add_prior_membership (s : baseSet α) (v : α) :
    ((s.Add v).1 = true ↔ v ∈ s.elements) ∧ v ∈ (s.Add v).2.elements := by
  constructor
  · simp [baseSet.Add]
  · simp [baseSet.Add]

/-- C6: `IsEqual` is reflexive and symmetric, holds exactly when the two
sets have the same cardinality and the same elements, and is false against
a nil argument or when the cardinalities differ. -/
theorem C6_isEqual_equivalence (a b : baseSet α) :
    a.IsEqual (some a) = true ∧
    a.IsEqual (some b) = b.IsEqual (some a) ∧
    (a.IsEqual (some b) = true ↔ a.Size = b.Size ∧ a.elements = b.elements) ∧
    a.IsEqual none = false ∧
    (a.Size ≠ b.Size → a.IsEqual (some b) = false) := by
  refine ⟨?_, ?_, ?_, rfl, ?_⟩
  · exact (baseSet.isEqual_iff a a).mpr rfl
  · rw [Bool.eq_iff_iff, baseSet.isEqual_iff, baseSet.isEqual_iff]
    exact eq_comm
  · rw [baseSet.isEqual_iff]
    constructor
    · intro he
      exact ⟨congrArg Finset.card he, he⟩
    · intro hp
      exact hp.2
  · intro h
    rw [baseSet.IsEqual]
    simp [h]

/-- Witness for C6 at the concrete sets `{1}` and `{1, 2}` over `Nat`:
their sizes differ and `IsEqual` returns false. -/
theorem C6_isEqual_equivalence_witness :
    (NewSet [1] : baseSet Nat).Size ≠ (NewSet [1, 2] : baseSet Nat).Size ∧
    (NewSet [1] : baseSet Nat).IsEqual (some (NewSet [1, 2])) = false := by
  refine ⟨by decide, ?_⟩
  exact (C6_isEqual_equivalence (NewSet [1] : baseSet Nat)
    (NewSet [1, 2] : baseSet Nat)).2.2.2.2 (by decide)

/-- C7: `Union` with a non-nil argument makes the receiver hold exactly the
union of the old receiver and the argument (so the argument becomes a
subset of the receiver), `Union` with a nil argument leaves the receiver
unchanged, and the concrete scenario `NewSet(1,2,3).Union(NewSet(2,3,4))`
yields a set of size 4 containing 1, 2, 3 and 4. -/
theorem C7_union_in_place (a b : baseSet α) :
    (a.Union (some b)).elements = a.elements ∪ b.elements ∧
    b.elements ⊆ (a.Union (some b)).elements ∧
    a.Union none = a ∧
    ((NewSet [1, 2, 3] : baseSet Nat).Union (some (NewSet [2, 3, 4]))).Size = 4 ∧
    ((NewSet [1, 2, 3] : baseSet Nat).Union (some (NewSet [2, 3, 4]))).Contains 1 = true ∧
    ((NewSet [1, 2, 3] : baseSet Nat).Union (some (NewSet [2, 3, 4]))).Contains 2 = true ∧
    ((NewSet [1, 2, 3] : baseSet Nat).Union (some (NewSet [2, 3, 4]))).Contains 3 = true ∧
    ((NewSet [1, 2, 3] : baseSet Nat).Union (some (NewSet [2, 3, 4]))).Contains 4 = true := by
  refine ⟨rfl, ?_, rfl, by decide, by decide, by decide, by decide, by decide⟩
  exact Finset.subset_union_right

end collection

namespace errors

/-- A Go `error` value as the `errors` package can observe it: `chain` is a
`*baseError` (the package's `Error` interface: message, stack, context,
code, optional inner cause), and `plain` is any other error value, which
exposes only its `Error()` string (such as an error built by
`fmt.Errorf`). -/
inductive GoError : Type where
  | chain (message stack context : String) (code : Int) (inner : Option GoError) : GoError
  | plain (message : String) : GoError

/-- Go `errors.DefaultErrCode`: the sentinel code for errors created
without an explicit code. -/
def DefaultErrCode : Int := -1

/-- Go `baseError.Message` (the `Error` interface accessor).  A `plain`
error does not implement the interface; its `Error()` string is returned
so the function is total, and no claim depends on that case. -/
def GoError.Message : GoError → String
  | .chain m _ _ _ _ => m
  | .plain m => m

/-- Go `baseError.Stack`.  The `plain` case is a modelling default. -/
def GoError.Stack : GoError → String
  | .chain _ st _ _ _ => st
  | .plain _ => ""

/-- Go `baseError.Context`.  The `plain` case is a modelling default. -/
def GoError.Context : GoError → String
  | .chain _ _ c _ _ => c
  | .plain _ => ""

/-- Go `baseError.Code`.  The `plain` case is a modelling default. -/
def GoError.Code : GoError → Int
  | .chain _ _ _ k _ => k
  | .plain _ => DefaultErrCode

/-- Go `baseError.Inner`: the wrapped cause, nil when absent. -/
def GoError.Inner : GoError → Option GoError
  | .chain _ _ _ _ i => i
  | .plain _ => none

/-- Go `baseError.SetCode`: overwrites the code field in place, leaving
every other field untouched.  The mutation is modelled by returning the
updated value. -/
def GoError.SetCode : GoError → Int → GoError
  | .chain m st c _ i, k => .chain m st c k i
  | .plain m, _ => .plain m

/-- Go `errors.New`: message, freshly captured stack and context, sentinel
code, no inner cause.  `StackTrace()` reads the ambient runtime call stack;
it is modelled as the explicit input `st = (stack, context)`. -/
def New (st : String × String) (msg : String) : GoError :=
  .chain msg st.1 st.2 DefaultErrCode none

/-- Go `errors.NewByCode`: like `New` with an explicit code. -/
def NewByCode (st : String × String) (code : Int) (msg : String) : GoError :=
  .chain msg st.1 st.2 code none

/-- Go `errors.Newf`: like `New` on the `fmt.Sprintf`-formatted message;
the formatting itself is host-runtime work, so the already-formatted
message is the input. -/
def Newf (st : String × String) (formatted : String) : GoError :=
  .chain formatted st.1 st.2 DefaultErrCode none

/-- Go `errors.NewfByCode`: like `Newf` with an explicit code. -/
def NewfByCode (st : String × String) (code : Int) (formatted : String) : GoError :=
  .chain formatted st.1 st.2 code none

/-- Go `errors.Wrap`: message, captured stack and context, sentinel code,
and the wrapped cause (possibly nil) as the inner error. -/
def Wrap (st : String × String) (err : Option GoError) (msg : String) : GoError :=
  .chain msg st.1 st.2 DefaultErrCode err

/-- Go `errors.WrapByCode`: like `Wrap` with an explicit code. -/
def WrapByCode (st : String × String) (code : Int) (err : Option GoError) (msg : String) :
    GoError :=
  .chain msg st.1 st.2 code err

/-- Go `errors.Wrapf`: like `Wrap` on the formatted message. -/
def Wrapf (st : String × String) (err : Option GoError) (formatted : String) : GoError :=
  .chain formatted st.1 st.2 DefaultErrCode err

/-- Go `errors.WrapfByCode`: like `WrapByCode` on the formatted message. -/
def WrapfByCode (st : String × String) (code : Int) (err : Option GoError)
    (formatted : String) : GoError :=
  .chain formatted st.1 st.2 code err

/-- The collection loop inside the free function `errors.Message` when the
argument implements `Error`: append the node's `Message()`, stop when
`Inner()` is nil, recurse when the inner error is again an `Error`, and
otherwise append the inner error's raw `Error()` string once and stop. -/
def msgWalk : GoError → List String
  | .plain m => [m]
  | .chain m _ _ _ none => [m]
  | .chain m _ _ _ (some inner) => m :: msgWalk inner

/-- The free function `errors.Message`: on an `Error` value, the collected
chain messages joined with single spaces (`strings.Join(ret, " ")`).  A
`plain` error implements neither `Error` nor `runtime.Error`, so the
type switch falls to the default branch and returns the fixed
diagnostic string. -/
def Message : GoError → String
  | .chain m st c k i => String.intercalate " " (msgWalk (.chain m st c k i))
  | .plain _ => "Passed a non-error to Message"

example :
    Message (Wrap ("s3", "c3") (some (Wrap ("s2", "c2")
      (some (Wrap ("s1", "c1") (some (.plain "I am inner")) "I am middle"))
      "almost outer")) "I am outer")
      = "I am outer almost outer I am middle I am inner" := by decide

/-- C8: `New`, `Newf`, `Wrap` and `Wrapf` all set the code to the sentinel
`DefaultErrCode = -1`, while the four `ByCode` constructors set exactly the
explicitly supplied code. -/
theorem C8_constructor_codes (st : String × String) (msg : String) (c : Int)
    (e : Option GoError) :
    DefaultErrCode = -1 ∧
    (New st msg).Code = -1 ∧
    (Newf st msg).Code = -1 ∧
    (Wrap st e msg).Code = -1 ∧
    (Wrapf st e msg).Code = -1 ∧
    (NewByCode st c msg).Code = c ∧
    (NewfByCode st c msg).Code = c ∧
    (WrapByCode st c e msg).Code = c ∧
    (WrapfByCode st c e msg).Code = c :=
  ⟨rfl, rfl, rfl, rfl, rfl, rfl, rfl, rfl, rfl⟩

/-- C9: the `Message()` accessor of a wrap returns only the outer message,
and the chain-aware free `Message` on a triple-wrapped error whose
innermost cause is a non-chain error returns the three wrap messages in
outer-to-inner order joined by single spaces, with the raw message of the
innermost cause appended once at the end. -/
theorem C9_message_chain (st1 st2 st3 : String × String) (m0 m1 m2 m3 : String)
    (e : Option GoError) :
    (Wrap st3 e m3).Message = m3 ∧
    Message (Wrap st3 (some (Wrap st2 (some (Wrap st1 (some (.plain m0)) m1)) m2)) m3)
      = m3 ++ " " ++ m2 ++ " " ++ m1 ++ " " ++ m0 :=
  ⟨rfl, rfl⟩

/-- C10: `SetCode` changes only the code field: afterwards `Code` returns
the new code while `Message`, `Stack`, `Context` and `Inner` are unchanged
(stated over every `*baseError`, i.e. every `chain` value). -/
theorem C10_setCode_frame (m st c : String) (k k2 : Int) (i : Option GoError) :
    ((GoError.chain m st c k i).SetCode k2).Code = k2 ∧
    ((GoError.chain m st c k i).SetCode k2).Message = (GoError.chain m st c k i).Message ∧
    ((GoError.chain m st c k i).SetCode k2).Stack = (GoError.chain m st c k i).Stack ∧
    ((GoError.chain m st c k i).SetCode k2).Context = (GoError.chain m st c k i).Context ∧
    ((GoError.chain m st c k i).SetCode k2).Inner = (GoError.chain m st c k i).Inner :=
  ⟨rfl, rfl, rfl, rfl, rfl⟩

end errors
